import Mathlib

/-!
Verification of the spleeter estimator-builder module (`spleeter/model/__init__.py`)
against its natural-language specification.

The Python module builds TensorFlow computation graphs.  We embed it shallowly:

* element-wise tensor arithmetic (masks, losses) is embedded per cell over `ℚ`
  (an exact stand-in for the float arithmetic of the code);
* the STFT / inverse-STFT pipeline is embedded over `ℝ`/`ℂ`, with the discrete
  Fourier transform written out as the finite sums TensorFlow's `rfft`/`irfft`
  compute;
* dictionary handling, dynamic model import and mode dispatch are embedded as a
  control-flow layer over an abstract tensor type, with Python exceptions as an
  explicit error type (`Except`).
-/

namespace Spleeter

/-- Python exceptions raised (or convertible to the spec's error taxonomy) by
`spleeter/model/__init__.py`.  `valueError` carries the formatted message of the
corresponding `raise ValueError(...)` statement; the spec names these
`ModelNotFoundError`, `UnsupportedLossError`, `UnsupportedMaskExtensionError`
and `UnsupportedModeError` according to the message.  `keyError` is a Python
`KeyError` from a `dict[...]` access, `moduleNotFound` a `ModuleNotFoundError`
from `importlib.import_module`, `attributeError` an `AttributeError` from
`getattr`. -/
inductive Err where
  | valueError (msg : String)
  | keyError (key : String)
  | moduleNotFound (path : String)
  | attributeError (name : String)
  deriving DecidableEq, Repr

/-! ### Constants of `EstimatorSpecBuilder` (lines 68-81) -/

/-- `DEFAULT_MODEL = 'unet.unet'` -/
def DEFAULT_MODEL : String := "unet.unet"

/-- `L1_MASK = 'L1_mask'` -/
def L1_MASK : String := "L1_mask"

/-- `WEIGHTED_L1_MASK = 'weighted_L1_mask'` -/
def WEIGHTED_L1_MASK : String := "weighted_L1_mask"

/-- `ADADELTA = 'Adadelta'` -/
def ADADELTA : String := "Adadelta"

/-- `SGD = 'SGD'` -/
def SGD : String := "SGD"

/-- `EPSILON = 1e-10` (line 81), as an exact rational. -/
def EPSILON : ℚ := 1 / 10000000000

/-! ### Ratio-mask separation, per cell (lines 280-291)

`_build_manual_output_waveform` computes, element-wise over the
(segment, time, frequency, channel) tensor cells,

    output_sum = sum(e ** separation_exponent for e in output_dict.values()) + EPSILON
    instrument_mask = (output ** separation_exponent + EPSILON / len(output_dict)) / output_sum

We embed one tensor cell: `outputDict` is the Python `output_dict` restricted to
that cell, an association list from key (`f"{instrument}_spectrogram"`) to the
cell's value. -/

/-- Value of the Python expression
`tf.reduce_sum([e ** separation_exponent for e in output_dict.values()], axis=0) + self.EPSILON`
at one tensor cell (lines 281-284). -/
def output_sum (outputDict : List (String × ℚ)) (separation_exponent : ℕ) : ℚ :=
  (outputDict.map (fun e => e.2 ^ separation_exponent)).sum + EPSILON

/-- Value, at one tensor cell, of the Python expression
`(output ** separation_exponent + (self.EPSILON / len(output_dict))) / output_sum`
(lines 289-291), where `output = output_dict[f'{instrument}_spectrogram']`
(line 287).  `none` when the key is absent (Python `KeyError`). -/
def instrument_mask (outputDict : List (String × ℚ)) (separation_exponent : ℕ)
    (instrument : String) : Option ℚ :=
  (outputDict.lookup (instrument ++ "_spectrogram")).map
    (fun output =>
      (output ^ separation_exponent + EPSILON / (outputDict.length : ℚ)) /
        output_sum outputDict separation_exponent)

/-! ### Mask extension, per (segment, time, channel) slice (lines 244-270)

`_extend_mask` works on a (segment, time, frequency, channel) tensor; all its
operations (`reduce_mean` over `axis=2` with `keepdims`, `tf.zeros` row,
`tf.tile` along axis 2, `tf.concat` on axis 2) act independently on each
(segment, time, channel) slice.  We embed one such slice: a list of `F`
frequency-bin values. -/

/-- One (segment, time, channel) slice of `_extend_mask` (lines 244-270).
`mask` is the slice of the restricted mask along the frequency axis;
the `average` policy appends `n_extra_row` copies of the slice's mean
(`tf.reduce_mean(mask, axis=2, keepdims=True)`), the `zeros` policy appends
zeros, any other policy raises
`ValueError(f'Invalid mask_extension parameter {extension}')`.
`n_extra_row = frame_length // 2 + 1 - F` (line 268). -/
def extend_mask (extension : String) (frame_length F : ℕ) (mask : List ℚ) :
    Except Err (List ℚ) :=
  if extension = "average" then
    .ok (mask ++ List.replicate (frame_length / 2 + 1 - F) (mask.sum / (mask.length : ℚ)))
  else if extension = "zeros" then
    .ok (mask ++ List.replicate (frame_length / 2 + 1 - F) 0)
  else
    .error (.valueError ("Invalid mask_extension parameter " ++ extension))

/-! ### Loss (lines 132-163)

In train/eval mode the tensors are 4-D magnitude spectrograms of shape
(batch, T, F, n_channels).  We embed them with explicit shape fields and a
total data function; `tf.reduce_mean` is sum divided by element count. -/

/-- A 4-D (batch, T, F, n_channels) spectrogram tensor over `ℚ`. -/
structure Tensor4 where
  B : ℕ
  T : ℕ
  F : ℕ
  C : ℕ
  data : ℕ → ℕ → ℕ → ℕ → ℚ

/-- `tf.reduce_mean` of the elementwise values `f` over a (B, T, F, C) index
space: sum over all cells divided by the number of cells. -/
def tensor_mean (B T F C : ℕ) (f : ℕ → ℕ → ℕ → ℕ → ℚ) : ℚ :=
  (∑ b in Finset.range B, ∑ t in Finset.range T, ∑ fr in Finset.range F,
      ∑ c in Finset.range C, f b t fr c) / ((B * T * F * C : ℕ) : ℚ)

/-- `tf.reduce_mean(tf.abs(output - labels[name]))` (line 144). -/
def l1_loss (output labels : Tensor4) : ℚ :=
  tensor_mean output.B output.T output.F output.C
    (fun b t f c => |output.data b t f c - labels.data b t f c|)

/-- `tf.reduce_mean(labels[name], axis=[1, 2, 3], keep_dims=True)` at batch
index `b` (lines 150-153): the mean of the label over its non-batch axes. -/
def batch_label_mean (labels : Tensor4) (b : ℕ) : ℚ :=
  (∑ t in Finset.range labels.T, ∑ f in Finset.range labels.F,
      ∑ c in Finset.range labels.C, labels.data b t f c) /
    ((labels.T * labels.F * labels.C : ℕ) : ℚ)

/-- `tf.reduce_mean(tf.reduce_mean(labels[name], axis=[1,2,3], keep_dims=True)
* tf.abs(output - labels[name]))` (lines 149-154): the per-batch label mean is
broadcast against the absolute difference, and the product is averaged over all
cells. -/
def weighted_l1_loss (output labels : Tensor4) : ℚ :=
  tensor_mean output.B output.T output.F output.C
    (fun b t f c => batch_label_mean labels b * |output.data b t f c - labels.data b t f c|)

/-- `_build_loss` (lines 132-163).  `loss_type` is
`self._params.get('loss_type', self.L1_MASK)`; an unsupported identifier raises
`ValueError(f"Unknown loss type: {loss_type}")` (the spec's
`UnsupportedLossError`).  Returns the scalar loss
`tf.reduce_sum(list(losses.values()))` together with the per-instrument loss
values (whose running means the code reports as metrics). -/
def build_loss (loss_type : Option String) (output_dict : List (String × Tensor4))
    (labels : String → Tensor4) : Except Err (ℚ × List (String × ℚ)) :=
  let lt := loss_type.getD L1_MASK
  if lt = L1_MASK then
    let losses := output_dict.map (fun nt => (nt.1, l1_loss nt.2 (labels nt.1)))
    .ok ((losses.map (fun nv => nv.2)).sum, losses)
  else if lt = WEIGHTED_L1_MASK then
    let losses := output_dict.map (fun nt => (nt.1, weighted_l1_loss nt.2 (labels nt.1)))
    .ok ((losses.map (fun nv => nv.2)).sum, losses)
  else
    .error (.valueError ("Unknown loss type: " ++ lt))

/-! ### Optimizer (lines 165-178) -/

/-- The optimizer instances the builder can return. -/
inductive Optimizer where
  | AdadeltaOptimizer
  | GradientDescentOptimizer (learning_rate : ℚ)
  | AdamOptimizer (learning_rate : ℚ)
  deriving DecidableEq, Repr

/-- `_build_optimizer` (lines 165-178).  `optimizer` is
`self._params.get('optimizer')` (`none` when the key is unset); the Adadelta
branch returns before `self._params['learning_rate']` is read, every other
branch reads it (a missing key raises Python `KeyError`). -/
def build_optimizer (optimizer : Option String) (learning_rate : Option ℚ) :
    Except Err Optimizer :=
  if optimizer = some ADADELTA then .ok .AdadeltaOptimizer
  else
    match learning_rate with
    | none => .error (.keyError "learning_rate")
    | some rate =>
      if optimizer = some SGD then .ok (.GradientDescentOptimizer rate)
      else .ok (.AdamOptimizer rate)

/-! ### Graph-construction layer (lines 21-41, 109-131, 180-242, 272-397)

The orchestration code manipulates dictionaries of symbolic tensors and raises
configuration errors before any numeric execution.  We embed it over an
abstract tensor type `α` (a graph node) and an abstract model-parameters type
`π`; the purely numeric TensorFlow operations the builder composes are fields
of a `Backend` record, and the dynamic-import machinery of
`get_model_function` is an `ImportEnv` (which submodules of
`spleeter.model.functions` are importable, and which attributes they hold). -/

/-- Type of a resolved model function:
`apply_model(input_tensor, instruments, params)` returning the output dict. -/
def ModelFn (α π : Type) : Type := α → List String → π → List (String × α)

/-- The Python import environment seen by `get_model_function`:
`modules` lists the importable module paths, `getattr_fn m a` is
`getattr(importlib.import_module(m), a)` (`none` when the attribute is
missing). -/
structure ImportEnv (α π : Type) where
  modules : List String
  getattr_fn : String → String → Option (ModelFn α π)

/-- `'.'.join((__name__, 'functions'))` (line 37) with
`__name__ = 'spleeter.model'`. -/
def MAIN_MODULE : String := "spleeter.model.functions"

/-- Python's `str.split('.')` on a character list: splits at every `'.'`,
keeping empty fragments (`''.split('.') == ['']`). -/
def split_dots : List Char → List (List Char)
  | [] => [[]]
  | c :: rest =>
    if c = '.' then [] :: split_dots rest
    else
      match split_dots rest with
      | [] => [[c]]
      | h :: t => (c :: h) :: t

/-- Python's `model_type.split('.')`. -/
def py_split_dot (model_type : String) : List String :=
  (split_dots model_type.data).map (fun cs => { data := cs })

/-- `'.'.join(model_type.split('.')[:-1])` (line 35). -/
def relative_path_to_module (model_type : String) : String :=
  String.intercalate "." ((py_split_dot model_type).dropLast)

/-- `model_type.split('.')[-1]` (line 36). -/
def model_name_of (model_type : String) : String :=
  ((py_split_dot model_type).getLastD "")

/-- `get_model_function` (lines 21-41): build the module path
`f'{main_module}.{relative_path_to_module}'`, import it (raising
`ModuleNotFoundError` when it cannot be located), then `getattr` the function
(raising `AttributeError` when the module lacks it). -/
def get_model_function (env : ImportEnv α π) (model_type : String) :
    Except Err (ModelFn α π) :=
  let path_to_module := MAIN_MODULE ++ "." ++ relative_path_to_module model_type
  if path_to_module ∈ env.modules then
    match env.getattr_fn path_to_module (model_name_of model_type) with
    | some f => .ok f
    | none => .error (.attributeError (model_name_of model_type))
  else
    .error (.moduleNotFound path_to_module)

/-- The optional `model` configuration entry, a dict with optional keys
`type` and `params`. -/
structure ModelConf (π : Type) where
  type : Option String
  params : Option π

/-- The `params` dictionary read by `EstimatorSpecBuilder.__init__`
(lines 97-107) and by the build methods.  The keys read with `params[...]`
in `__init__` are required fields; keys read elsewhere with `[...]` or
`.get(...)` are `Option` fields (`none` models absence from the dict). -/
structure Params (π : Type) where
  mix_name : String
  instrument_list : List String
  n_channels : ℕ
  T : ℕ
  F : ℕ
  frame_length : ℕ
  frame_step : ℕ
  model : Option (ModelConf π)
  loss_type : Option String
  optimizer : Option String
  learning_rate : Option ℚ
  MWF : Option Bool
  mask_extension : Option String
  separation_exponent : Option ℕ

/-- A Python `d[k]` dictionary access on an association list: the value when
the key is present, `KeyError` otherwise. -/
def dict_get (d : List (String × β)) (k : String) : Except Err β :=
  match d.lookup k with
  | some v => .ok v
  | none => .error (.keyError k)

/-- `_build_output_dict` (lines 109-131): read the mix spectrogram feature,
determine the model type (`params.get('model')`, then `model.get('type',
DEFAULT_MODEL)` or the default when the `model` key is absent), resolve the
model function — turning `ModuleNotFoundError` into
`ValueError(f'No model function {model_type} found')`, the spec's
`ModelNotFoundError` — and apply it to
`(input_tensor, self._instruments, self._params['model']['params'])`.
Note that the final argument re-reads `self._params['model']` with a plain
`[...]` access. -/
def build_output_dict (env : ImportEnv α π) (features : List (String × α))
    (params : Params π) : Except Err (List (String × α)) := do
  let input_tensor ← dict_get features (params.mix_name ++ "_spectrogram")
  let model_type :=
    match params.model with
    | some m => m.type.getD DEFAULT_MODEL
    | none => DEFAULT_MODEL
  let apply_model ←
    match get_model_function env model_type with
    | .error (.moduleNotFound _) =>
        .error (.valueError ("No model function " ++ model_type ++ " found"))
    | r => r
  let model_conf ← match params.model with
    | some m => .ok m
    | none => .error (.keyError "model")
  let model_params ← match model_conf.params with
    | some p => .ok p
    | none => .error (.keyError "params")
  .ok (apply_model input_tensor params.instrument_list model_params)

/-- The numeric TensorFlow operations composed by the builder, abstracted as a
backend over graph nodes `α`.  Each field embeds the tensor expression built at
the cited lines; the control flow around them (dictionary accesses, parameter
checks, error raising) stays in the definitions below. -/
structure Backend (α : Type) where
  stft_op : α → ℕ → ℕ → α
  spectrogram_op : α → ℕ → ℕ → α
  inverse_stft_op : α → ℕ → ℕ → α → α
  output_sum_op : List α → ℕ → α
  mask_op : α → ℕ → ℕ → α → α
  mean_row_op : α → α
  zeros_row_op : α → α
  tile_concat_op : α → α → ℤ → α
  reshape_trim_op : α → α → α
  apply_mask_op : α → α → α
  mwf_op : List α → α → List α
  l1_op : α → α → α
  weighted_l1_op : α → α → α
  sum_op : List α → α
  metric_op : α → α

/-- `_build_stft_feature` (lines 180-195): reads `features['waveform']`,
computes the STFT feature and the spectrogram feature, and stores them under
`f'{mix}_stft'` and `f'{mix}_spectrogram'` (dictionary assignment: the new
entries shadow older ones). -/
def build_stft_feature_g (B : Backend α) (features : List (String × α))
    (params : Params π) : Except Err (List (String × α)) := do
  let waveform ← dict_get features "waveform"
  let stft_feature := B.stft_op waveform params.frame_length params.frame_step
  let spectrogram := B.spectrogram_op stft_feature params.T params.F
  .ok ((params.mix_name ++ "_spectrogram", spectrogram) ::
       (params.mix_name ++ "_stft", stft_feature) :: features)

/-- `_inverse_stft` (lines 197-211) at the graph layer: reads
`self._features['waveform']` for the final length-truncating slice. -/
def inverse_stft_g (B : Backend α) (features : List (String × α))
    (params : Params π) (stft : α) : Except Err α := do
  let waveform ← dict_get features "waveform"
  .ok (B.inverse_stft_op stft params.frame_length params.frame_step waveform)

/-- `_extend_mask` (lines 244-270) at the graph layer: reads
`self._params['mask_extension']`, builds the extension row according to the
policy (raising `ValueError(f'Invalid mask_extension parameter {extension}')`
otherwise), and tiles/concatenates `n_extra_row = frame_length // 2 + 1 - F`
copies (a Python `int`, possibly negative, hence `ℤ`). -/
def extend_mask_g (B : Backend α) (params : Params π) (mask : α) :
    Except Err α := do
  let extension ← match params.mask_extension with
    | some e => .ok e
    | none => .error (.keyError "mask_extension")
  let extension_row ←
    if extension = "average" then .ok (B.mean_row_op mask)
    else if extension = "zeros" then .ok (B.zeros_row_op mask)
    else .error (.valueError ("Invalid mask_extension parameter " ++ extension))
  let n_extra_row : ℤ := (params.frame_length : ℤ) / 2 + 1 - (params.F : ℤ)
  .ok (B.tile_concat_op mask extension_row n_extra_row)

/-- `_build_manual_output_waveform` (lines 272-307): reads
`self._params['separation_exponent']`, forms `output_sum` over
`output_dict.values()`, then per configured instrument reads
`output_dict[f'{instrument}_spectrogram']`, builds the ratio mask, extends it,
reshapes and trims it against `self._features[f'{mix}_stft']`, applies it to
the mixture STFT and inverse-transforms. -/
def build_manual_output_waveform_g (B : Backend α) (features : List (String × α))
    (params : Params π) (output_dict : List (String × α)) :
    Except Err (List (String × α)) := do
  let separation_exponent ← match params.separation_exponent with
    | some e => .ok e
    | none => .error (.keyError "separation_exponent")
  let osum := B.output_sum_op (output_dict.map (fun e => e.2)) separation_exponent
  params.instrument_list.mapM (fun instrument => do
    let output ← dict_get output_dict (instrument ++ "_spectrogram")
    let mask := B.mask_op output separation_exponent output_dict.length osum
    let mask ← extend_mask_g B params mask
    let stft_feature ← dict_get features (params.mix_name ++ "_stft")
    let mask := B.reshape_trim_op mask stft_feature
    let waveform ← inverse_stft_g B features params (B.apply_mask_op mask stft_feature)
    .ok (instrument, waveform))

/-- `_build_mwf_output_waveform` (lines 213-242): reads
`self._features[f'{mix}_stft']`, stacks the per-instrument spectrograms
(`output_dict[f'{instrument}_spectrogram']`), delegates to the external
`norbert.wiener` routine, and inverse-transforms each filtered STFT. -/
def build_mwf_output_waveform_g (B : Backend α) (features : List (String × α))
    (params : Params π) (output_dict : List (String × α)) :
    Except Err (List (String × α)) := do
  let x ← dict_get features (params.mix_name ++ "_stft")
  let v ← params.instrument_list.mapM
    (fun instrument => dict_get output_dict (instrument ++ "_spectrogram"))
  let filtered := B.mwf_op v x
  (params.instrument_list.zip filtered).mapM (fun iw => do
    let waveform ← inverse_stft_g B features params iw.2
    .ok (iw.1, waveform))

/-- `_build_output_waveform` (lines 309-323): choose MWF or manual separation
according to `params.get('MWF', False)`, then propagate `audio_id` unchanged
when the feature is present. -/
def build_output_waveform_g (B : Backend α) (features : List (String × α))
    (params : Params π) (output_dict : List (String × α)) :
    Except Err (List (String × α)) := do
  let output_waveform ←
    if params.MWF.getD false then
      build_mwf_output_waveform_g B features params output_dict
    else
      build_manual_output_waveform_g B features params output_dict
  .ok (match features.lookup "audio_id" with
    | some a => output_waveform ++ [("audio_id", a)]
    | none => output_waveform)

/-- `_build_loss` at the graph layer (lines 132-163): the same control flow as
`build_loss`, with the numeric loss expressions supplied by the backend and
`labels[name]` dictionary accesses made explicit. -/
def build_loss_g (B : Backend α) (params : Params π)
    (output_dict labels : List (String × α)) :
    Except Err (α × List (String × α)) := do
  let loss_type := params.loss_type.getD L1_MASK
  let losses ←
    if loss_type = L1_MASK then
      output_dict.mapM (fun nt => do
        let lab ← dict_get labels nt.1
        .ok (nt.1, B.l1_op nt.2 lab))
    else if loss_type = WEIGHTED_L1_MASK then
      output_dict.mapM (fun nt => do
        let lab ← dict_get labels nt.1
        .ok (nt.1, B.weighted_l1_op nt.2 lab))
    else
      .error (.valueError ("Unknown loss type: " ++ loss_type))
  let loss := B.sum_op (losses.map (fun nv => nv.2))
  let metrics := losses.map (fun nv => (nv.1, B.metric_op nv.2)) ++
    [("absolute_difference", B.metric_op loss)]
  .ok (loss, metrics)

/-- The mode-tagged `tf.estimator.EstimatorSpec` bundle (PREDICT carries the
predictions map, EVAL the loss and metrics, TRAIN additionally the optimizer
update operation). -/
inductive EstimatorSpec (α : Type) where
  | predictSpec (predictions : List (String × α))
  | evalSpec (loss : α) (metrics : List (String × α))
  | trainSpec (loss : α) (train_op : Optimizer × α) (metrics : List (String × α))

/-- `build_predict_model` (lines 325-338). -/
def build_predict_model (env : ImportEnv α π) (B : Backend α)
    (features : List (String × α)) (params : Params π) :
    Except Err (EstimatorSpec α) := do
  let features ← build_stft_feature_g B features params
  let output_dict ← build_output_dict env features params
  let output_waveform ← build_output_waveform_g B features params output_dict
  .ok (.predictSpec output_waveform)

/-- `build_evaluation_model` (lines 340-354). -/
def build_evaluation_model (env : ImportEnv α π) (B : Backend α)
    (features : List (String × α)) (params : Params π)
    (labels : List (String × α)) : Except Err (EstimatorSpec α) := do
  let output_dict ← build_output_dict env features params
  let lm ← build_loss_g B params output_dict labels
  .ok (.evalSpec lm.1 lm.2)

/-- `build_train_model` (lines 356-376). -/
def build_train_model (env : ImportEnv α π) (B : Backend α)
    (features : List (String × α)) (params : Params π)
    (labels : List (String × α)) : Except Err (EstimatorSpec α) := do
  let output_dict ← build_output_dict env features params
  let lm ← build_loss_g B params output_dict labels
  let optimizer ← build_optimizer params.optimizer params.learning_rate
  .ok (.trainSpec lm.1 (optimizer, lm.1) lm.2)

/-- The `tf.estimator.ModeKeys` string constants. -/
def MODE_PREDICT : String := "infer"

/-- `tf.estimator.ModeKeys.EVAL`. -/
def MODE_EVAL : String := "eval"

/-- `tf.estimator.ModeKeys.TRAIN`. -/
def MODE_TRAIN : String := "train"

/-- `model_fn` (lines 379-397): dispatch on the estimator mode, raising
`ValueError(f'Unknown mode {mode}')` (the spec's `UnsupportedModeError`) for
any unrecognized mode. -/
def model_fn (env : ImportEnv α π) (B : Backend α) (features : List (String × α))
    (labels : List (String × α)) (mode : String) (params : Params π) :
    Except Err (EstimatorSpec α) :=
  if mode = MODE_PREDICT then build_predict_model env B features params
  else if mode = MODE_EVAL then build_evaluation_model env B features params labels
  else if mode = MODE_TRAIN then build_train_model env B features params labels
  else .error (.valueError ("Unknown mode " ++ mode))

/-! ### Numeric STFT layer (lines 180-211)

`_build_stft_feature` computes, per channel,
`tf.contrib.signal.stft(signal, frame_length, frame_step,
window_fn=hann_window(periodic=True), pad_end=True)`; `_inverse_stft` computes
`tf.contrib.signal.inverse_stft(stft, frame_length, frame_step,
window_fn=hann_window(periodic=True)) * 2/3` and slices the result to the
waveform's sample count.  We embed those library calls by their defining
mathematics over exact reals (the spectral transform is the real FFT of the
windowed frames; the inverse is the inverse real FFT of each frame, windowed
again and overlap-added).  With spleeter's power-of-two `frame_length` the FFT
size equals `frame_length`. -/

noncomputable section

open Real in
/-- The periodic Hann window of length `N`:
`hann_window(N, periodic=True)[n] = (1 - cos(2 π n / N)) / 2`. -/
def hann (N n : ℕ) : ℝ := (1 - Real.cos (2 * π * n / N)) / 2

/-- A channel signal of length `L` zero-padded to infinity (`pad_end=True`
pads the trailing partial frame with zeros). -/
def padded (L : ℕ) (x : ℕ → ℝ) (t : ℕ) : ℝ := if t < L then x t else 0

/-- Number of STFT frames with `pad_end=True`: `ceil(L / frame_step)`. -/
def num_frames (L s : ℕ) : ℕ := (L + s - 1) / s

/-- The Fourier kernel `exp(2 π i j / N)`. -/
def fourier_kernel (N : ℕ) (j : ℤ) : ℂ :=
  Complex.exp (2 * Real.pi * Complex.I * j / N)

/-- Bin `f` of the length-`N` discrete Fourier transform of the real sequence
`a` (TensorFlow's `rfft` materializes bins `0 .. N/2`; the formula is the same
on every bin). -/
def dft_bin (a : ℕ → ℝ) (N f : ℕ) : ℂ :=
  ∑ n in Finset.range N, (a n : ℂ) * fourier_kernel N (-(f * n))

/-- Bin `f` of frame `k` of the forward STFT of a channel: the padded signal is
framed at hop `s`, multiplied by the periodic Hann window, and transformed. -/
def stft_frame_bin (x : ℕ → ℝ) (L N s k f : ℕ) : ℂ :=
  dft_bin (fun n => hann N n * padded L x (k * s + n)) N f

/-- The hermitian extension `irfft` performs on its `N/2 + 1` stored bins:
bins above `N/2` are the conjugates of their mirror bins. -/
def hermitian_bins (Y : ℕ → ℂ) (N f : ℕ) : ℂ :=
  if f ≤ N / 2 then Y f else (starRingEnd ℂ) (Y (N - f))

/-- TensorFlow's `irfft` at sample `t`: the inverse DFT of the hermitian
extension of the stored bins (real because the extension is hermitian; we take
the real part the library returns). -/
def irfft (Y : ℕ → ℂ) (N t : ℕ) : ℝ :=
  ((∑ f in Finset.range N, hermitian_bins Y N f * fourier_kernel N (f * t)) / N).re

/-- `WINDOW_COMPENSATION_FACTOR = 2./3.` (line 80). -/
def WINDOW_COMPENSATION_FACTOR : ℝ := 2 / 3

/-- `tf.contrib.signal.inverse_stft` with an explicit (periodic Hann) window:
each frame is inverse-transformed, multiplied by the synthesis window, and
overlap-added at hop `s`; sample `t` receives a contribution from frame `k`
exactly when `k*s ≤ t < k*s + N`. -/
def istft_ola (Y : ℕ → ℕ → ℂ) (m N s t : ℕ) : ℝ :=
  ∑ k in Finset.range m,
    if k * s ≤ t ∧ t < k * s + N then
      hann N (t - k * s) * irfft (Y k) N (t - k * s)
    else 0

/-- A waveform tensor of shape (samples, channels), as fed to the builder in
predict mode. -/
structure WaveTensor where
  samples : ℕ
  channels : ℕ
  data : ℕ → ℕ → ℝ

/-- An STFT tensor of shape (frames, bins, channels), as produced at line 184
(after the final transpose to `perm=[1, 2, 0]`). -/
structure StftTensor where
  frames : ℕ
  bins : ℕ
  channels : ℕ
  data : ℕ → ℕ → ℕ → ℂ

/-- The STFT feature built by `_build_stft_feature` (lines 184-193): per
channel, `ceil(samples / frame_step)` frames of `frame_length / 2 + 1` bins. -/
def build_stft_feature (w : WaveTensor) (frame_length frame_step : ℕ) : StftTensor :=
  { frames := num_frames w.samples frame_step
    bins := frame_length / 2 + 1
    channels := w.channels
    data := fun k f c =>
      stft_frame_bin (fun t => w.data t c) w.samples frame_length frame_step k f }

/-- `_inverse_stft` (lines 197-211): per channel, the overlap-add inverse of
the frames scaled by `WINDOW_COMPENSATION_FACTOR`, transposed back to
(samples, channels) and sliced by
`reshaped[:tf.shape(self._features['waveform'])[0], :]`.  The un-sliced
overlap-add output has `frame_length + frame_step * (frames - 1)` samples, so
the slice keeps the minimum of that and the waveform's sample count. -/
def inverse_stft (st : StftTensor) (frame_length frame_step waveform_samples : ℕ) :
    WaveTensor :=
  { samples := min waveform_samples
      (if st.frames = 0 then 0 else frame_length + frame_step * (st.frames - 1))
    channels := st.channels
    data := fun t c =>
      WINDOW_COMPENSATION_FACTOR *
        istft_ola (fun k f => st.data k f c) st.frames frame_length frame_step t }

end

/-! ### Concrete instances used in closed statements -/

/-- A trivial backend over `Unit` graph nodes (the numeric ops play no role in
the control-flow facts stated on concrete inputs). -/
def unitBackend : Backend Unit :=
  { stft_op := fun _ _ _ => ()
    spectrogram_op := fun _ _ _ => ()
    inverse_stft_op := fun _ _ _ _ => ()
    output_sum_op := fun _ _ => ()
    mask_op := fun _ _ _ _ => ()
    mean_row_op := fun _ => ()
    zeros_row_op := fun _ => ()
    tile_concat_op := fun _ _ _ => ()
    reshape_trim_op := fun _ _ => ()
    apply_mask_op := fun _ _ => ()
    mwf_op := fun v _ => v
    l1_op := fun _ _ => ()
    weighted_l1_op := fun _ _ => ()
    sum_op := fun _ => ()
    metric_op := fun _ => () }

/-- An import environment in which exactly the default `unet` submodule is
importable and every attribute of it resolves to a model function returning
one spectrogram per instrument. -/
def unetEnv : ImportEnv Unit Unit :=
  { modules := ["spleeter.model.functions.unet"]
    getattr_fn := fun _ _ => some (fun _ instruments _ =>
      instruments.map (fun i => (i ++ "_spectrogram", ()))) }

/-- A parameter dictionary holding every required key
(`mix_name, instrument_list, n_channels, T, F, frame_length, frame_step`)
but omitting the optional `model` key. -/
def paramsNoModel : Params Unit :=
  { mix_name := "mix"
    instrument_list := ["vocals", "accompaniment"]
    n_channels := 2
    T := 512
    F := 1024
    frame_length := 4096
    frame_step := 1024
    model := none
    loss_type := none
    optimizer := none
    learning_rate := none
    MWF := none
    mask_extension := some "zeros"
    separation_exponent := some 2 }

/-- The same parameter dictionary with an explicit
`model = {type: 'unet.unet', params: ...}` entry. -/
def paramsWithModel : Params Unit :=
  { paramsNoModel with model := some { type := some "unet.unet", params := some () } }

/-! ## Helper lemmas -/

theorem lookup_mem {β : Type} {l : List (String × β)} {k : String} {v : β}
    (h : l.lookup k = some v) : (k, v) ∈ l := by
  induction l with
  | nil => simp [List.lookup] at h
  | cons p l ih =>
    rcases p with ⟨k', v'⟩
    by_cases hk : k = k'
    · subst hk
      simp only [List.lookup, beq_self_eq_true, Option.some.injEq] at h
      subst h
      exact List.mem_cons_self _ _
    · have hbeq : (k == k') = false := beq_eq_false_iff_ne.mpr hk
      simp only [List.lookup, hbeq] at h
      exact List.mem_cons_of_mem _ (ih h)

theorem append_right_cancel {a b c : String} (h : a ++ c = b ++ c) : a = b := by
  have hd := congrArg String.data h
  simp only [String.data_append] at hd
  exact String.ext (List.append_cancel_right hd)

theorem lookup_map_append (out : String → ℚ) (l : List String) (i : String) (h : i ∈ l) :
    (l.map (fun j => (j ++ "_spectrogram", out j))).lookup (i ++ "_spectrogram") =
      some (out i) := by
  induction l with
  | nil => cases h
  | cons a l ih =>
    rcases List.mem_cons.mp h with rfl | hmem
    · simp [List.lookup]
    · by_cases hia : i = a
      · subst hia; simp [List.lookup]
      · have hkey : (i ++ "_spectrogram" == a ++ "_spectrogram") = false :=
          beq_eq_false_iff_ne.mpr (fun hc => hia (append_right_cancel hc))
        simp only [List.map_cons, List.lookup, hkey]
        exact ih hmem

theorem sum_map_add_const (l : List String) (f : String → ℚ) (c : ℚ) :
    (l.map (fun i => f i + c)).sum = (l.map f).sum + l.length * c := by
  induction l with
  | nil => simp
  | cons a l ih => simp [ih]; ring

theorem sum_map_div (l : List String) (f : String → ℚ) (D : ℚ) :
    (l.map (fun i => f i / D)).sum = (l.map f).sum / D := by
  induction l with
  | nil => simp
  | cons a l ih =>
    simp only [List.map_cons, List.sum_cons, ih]
    rw [div_add_div_same]

/-! ## Claims -/

/-- **C1.**  For every instrument in the configured instrument list, the direct
ratio-mask reconstruction computes that instrument's mask as
`(output^p + ε/N) / (Σ_i output_i^p + ε)` (that formula is the definition of
`instrument_mask` / `output_sum`, transcribed from lines 280-291); for every
cell with nonnegative instrument outputs (magnitude spectrograms) the mask
value is finite — the denominator `output_sum` is nonzero — and strictly
positive, even when every instrument's output is zero at that cell. -/
theorem ratio_mask_finite_positive (outputDict : List (String × ℚ)) (p : ℕ)
    (instruments : List String)
    (hnn : ∀ e ∈ outputDict, 0 ≤ e.2)
    (hkeys : ∀ i ∈ instruments, (outputDict.lookup (i ++ "_spectrogram")).isSome = true) :
    output_sum outputDict p ≠ 0 ∧
    ∀ i ∈ instruments, ∃ m, instrument_mask outputDict p i = some m ∧ 0 < m := by
  have hsum : 0 < output_sum outputDict p := by
    have h1 : 0 ≤ (outputDict.map (fun e => e.2 ^ p)).sum := by
      apply List.sum_nonneg
      intro x hx
      rcases List.mem_map.mp hx with ⟨e, he, rfl⟩
      exact pow_nonneg (hnn e he) p
    have h2 : (0:ℚ) < EPSILON := by norm_num [EPSILON]
    unfold output_sum
    linarith
  refine ⟨ne_of_gt hsum, ?_⟩
  intro i hi
  obtain ⟨v, hv⟩ := Option.isSome_iff_exists.mp (hkeys i hi)
  have hvmem : (i ++ "_spectrogram", v) ∈ outputDict := lookup_mem hv
  have hlenpos : (0:ℚ) < (outputDict.length : ℚ) := by
    exact_mod_cast List.length_pos.mpr (List.ne_nil_of_mem hvmem)
  refine ⟨_, by rw [instrument_mask, hv, Option.map_some'], ?_⟩
  apply div_pos _ hsum
  have hv0 : 0 ≤ v := hnn _ hvmem
  have : (0:ℚ) < EPSILON / (outputDict.length : ℚ) :=
    div_pos (by norm_num [EPSILON]) hlenpos
  have := pow_nonneg hv0 p
  linarith

/-- **C1, witness.** -/
theorem ratio_mask_finite_positive_witness :
    output_sum [("vocals_spectrogram", (0:ℚ)), ("drums_spectrogram", (0:ℚ))] 2 ≠ 0 ∧
    ∀ i ∈ ["vocals", "drums"], ∃ m,
      instrument_mask [("vocals_spectrogram", (0:ℚ)), ("drums_spectrogram", (0:ℚ))] 2 i =
        some m ∧ 0 < m :=
  ratio_mask_finite_positive _ 2 _ (by decide) (by decide)

/-- **C2.**  For direct ratio-mask reconstruction, at every tensor cell the
masks summed over the configured instruments equal exactly 1 (hence
approximately 1) whenever every instrument output is strictly positive at the
cell — in fact the fixed `ε = 1e-10` already cancels exactly:
`Σ_i (o_i^p + ε/N) = Σ_i o_i^p + ε` is the denominator. -/
theorem ratio_masks_sum_to_one (instruments : List String) (out : String → ℚ) (p : ℕ)
    (hpos : ∀ i ∈ instruments, 0 < out i) (hne : instruments ≠ []) :
    (instruments.map (fun i =>
      (instrument_mask (instruments.map (fun j => (j ++ "_spectrogram", out j))) p i).getD 0)).sum
      = 1 := by
  set d := instruments.map (fun j => (j ++ "_spectrogram", out j)) with hd
  have hlen : d.length = instruments.length := by rw [hd, List.length_map]
  have hmask : ∀ i ∈ instruments,
      (instrument_mask d p i).getD 0 =
        (out i ^ p + EPSILON / (instruments.length : ℚ)) / output_sum d p := by
    intro i hi
    rw [instrument_mask, lookup_map_append out instruments i hi, Option.map_some',
      Option.getD_some, hlen]
  rw [List.map_congr_left hmask]
  have hS : output_sum d p = (instruments.map (fun i => out i ^ p)).sum + EPSILON := by
    rw [output_sum, hd, List.map_map]
    rfl
  rw [sum_map_div, sum_map_add_const, hS]
  have hlenpos : (0:ℚ) < (instruments.length : ℚ) := by
    exact_mod_cast List.length_pos.mpr hne
  have hcancel : (instruments.length : ℚ) * (EPSILON / (instruments.length : ℚ)) = EPSILON := by
    rw [mul_div_assoc']
    exact mul_div_cancel_left₀ _ (ne_of_gt hlenpos)
  rw [hcancel]
  apply div_self
  have h1 : 0 ≤ (instruments.map (fun i => out i ^ p)).sum := by
    apply List.sum_nonneg
    intro x hx
    rcases List.mem_map.mp hx with ⟨i, hi, rfl⟩
    exact pow_nonneg (le_of_lt (hpos i hi)) p
  have h2 : (0:ℚ) < EPSILON := by norm_num [EPSILON]
  linarith

/-- **C2, witness.** -/
theorem ratio_masks_sum_to_one_witness :
    (["vocals", "drums"].map (fun i =>
      (instrument_mask (["vocals", "drums"].map (fun j => (j ++ "_spectrogram", (2:ℚ)))) 2 i).getD 0)).sum
      = 1 :=
  ratio_masks_sum_to_one ["vocals", "drums"] (fun _ => 2) 2 (by decide) (by decide)

/-- **C3.**  Mask extension: the `average` policy yields a mask whose extra
high-frequency bins all equal the mean of the computed sub-band (per
time-frame slice), the `zeros` policy yields extra bins exactly 0; in both
cases the extended width is `frame_length // 2 + 1` and the first `F` bins are
the original mask; any other extension value raises
`ValueError(f'Invalid mask_extension parameter {extension}')`
(the spec's `UnsupportedMaskExtensionError`). -/
theorem extend_mask_policies (frame_length F : ℕ) (mask : List ℚ)
    (hlen : mask.length = F) (hF : F ≤ frame_length / 2 + 1) :
    (∃ m, extend_mask "average" frame_length F mask = .ok m ∧
      m.length = frame_length / 2 + 1 ∧ m.take F = mask ∧
      ∀ j, F ≤ j → j < frame_length / 2 + 1 → m.getD j 0 = mask.sum / (F : ℚ)) ∧
    (∃ m, extend_mask "zeros" frame_length F mask = .ok m ∧
      m.length = frame_length / 2 + 1 ∧ m.take F = mask ∧
      ∀ j, F ≤ j → j < frame_length / 2 + 1 → m.getD j 0 = 0) ∧
    (∀ ext, ext ≠ "average" → ext ≠ "zeros" →
      extend_mask ext frame_length F mask =
        .error (.valueError ("Invalid mask_extension parameter " ++ ext))) := by
  have hget : ∀ (v : ℚ) (j : ℕ), F ≤ j → j < frame_length / 2 + 1 →
      (mask ++ List.replicate (frame_length / 2 + 1 - F) v).getD j 0 = v := by
    intro v j hFj hjlt
    rw [List.getD_append_right _ _ _ _ (by omega : mask.length ≤ j), hlen]
    have hlt : j - F < frame_length / 2 + 1 - F := by omega
    simp [List.getD, List.getElem?_replicate, hlt]
  have hlenext : ∀ v : ℚ,
      (mask ++ List.replicate (frame_length / 2 + 1 - F) v).length = frame_length / 2 + 1 := by
    intro v
    rw [List.length_append, List.length_replicate, hlen]
    omega
  have htake : ∀ v : ℚ,
      (mask ++ List.replicate (frame_length / 2 + 1 - F) v).take F = mask := by
    intro v
    conv_lhs => rw [← hlen]
    exact List.take_left _ _
  refine ⟨⟨mask ++ List.replicate (frame_length / 2 + 1 - F) (mask.sum / (F : ℚ)),
      ?_, hlenext _, htake _, hget _⟩,
    ⟨mask ++ List.replicate (frame_length / 2 + 1 - F) 0,
      ?_, hlenext _, htake _, hget _⟩, ?_⟩
  · rw [extend_mask, if_pos rfl, hlen]
  · rw [extend_mask, if_neg (by decide), if_pos rfl]
  · intro ext h1 h2
    rw [extend_mask, if_neg h1, if_neg h2]

/-- **C3, witness.** -/
theorem extend_mask_policies_witness :
    (∃ m, extend_mask "average" 8 3 [1, 2, 3] = .ok m ∧
      m.length = 8 / 2 + 1 ∧ m.take 3 = [1, 2, 3] ∧
      ∀ j, 3 ≤ j → j < 8 / 2 + 1 → m.getD j 0 = ([1, 2, 3] : List ℚ).sum / (3 : ℚ)) ∧
    (∃ m, extend_mask "zeros" 8 3 [1, 2, 3] = .ok m ∧
      m.length = 8 / 2 + 1 ∧ m.take 3 = [1, 2, 3] ∧
      ∀ j, 3 ≤ j → j < 8 / 2 + 1 → m.getD j 0 = 0) ∧
    (∀ ext, ext ≠ "average" → ext ≠ "zeros" →
      extend_mask ext 8 3 [1, 2, 3] =
        .error (.valueError ("Invalid mask_extension parameter " ++ ext))) :=
  extend_mask_policies 8 3 [1, 2, 3] (by decide) (by decide)

/-- **C6.**  Loss computation: with identical output and label tensors both the
`L1` and the `weighted_L1` losses are exactly 0; with nonnegative label
spectrograms the `weighted_L1` loss is nonnegative; for both supported loss
types the scalar loss is the sum over instruments of the per-instrument terms;
any other configured loss type raises
`ValueError(f"Unknown loss type: {loss_type}")` (the spec's
`UnsupportedLossError`). -/
theorem build_loss_properties (output_dict : List (String × Tensor4))
    (labels : String → Tensor4) :
    ((∀ nt ∈ output_dict, labels nt.1 = nt.2) →
      build_loss (some L1_MASK) output_dict labels =
        .ok (0, output_dict.map (fun nt => (nt.1, 0))) ∧
      build_loss (some WEIGHTED_L1_MASK) output_dict labels =
        .ok (0, output_dict.map (fun nt => (nt.1, 0)))) ∧
    ((∀ s b t f c, 0 ≤ (labels s).data b t f c) →
      ∀ L ms, build_loss (some WEIGHTED_L1_MASK) output_dict labels = .ok (L, ms) →
        0 ≤ L) ∧
    (build_loss (some L1_MASK) output_dict labels =
      .ok ((output_dict.map (fun nt => l1_loss nt.2 (labels nt.1))).sum,
        output_dict.map (fun nt => (nt.1, l1_loss nt.2 (labels nt.1))))) ∧
    (build_loss (some WEIGHTED_L1_MASK) output_dict labels =
      .ok ((output_dict.map (fun nt => weighted_l1_loss nt.2 (labels nt.1))).sum,
        output_dict.map (fun nt => (nt.1, weighted_l1_loss nt.2 (labels nt.1))))) ∧
    (∀ lt, lt ≠ L1_MASK → lt ≠ WEIGHTED_L1_MASK →
      build_loss (some lt) output_dict labels =
        .error (.valueError ("Unknown loss type: " ++ lt))) := by
  have hL1 : build_loss (some L1_MASK) output_dict labels =
      .ok ((output_dict.map (fun nt => l1_loss nt.2 (labels nt.1))).sum,
        output_dict.map (fun nt => (nt.1, l1_loss nt.2 (labels nt.1)))) := by
    rw [build_loss]
    simp only [Option.getD_some, if_pos rfl, List.map_map]
    rfl
  have hW : build_loss (some WEIGHTED_L1_MASK) output_dict labels =
      .ok ((output_dict.map (fun nt => weighted_l1_loss nt.2 (labels nt.1))).sum,
        output_dict.map (fun nt => (nt.1, weighted_l1_loss nt.2 (labels nt.1)))) := by
    rw [build_loss]
    simp only [Option.getD_some, if_neg (by decide : ¬ WEIGHTED_L1_MASK = L1_MASK),
      if_pos rfl, List.map_map]
    rfl
  have hl1_zero : ∀ t : Tensor4, l1_loss t t = 0 := by
    intro t
    simp [l1_loss, tensor_mean]
  have hw_zero : ∀ t : Tensor4, weighted_l1_loss t t = 0 := by
    intro t
    simp [weighted_l1_loss, tensor_mean]
  refine ⟨?_, ?_, hL1, hW, ?_⟩
  · intro hid
    have hmapL : output_dict.map (fun nt => (nt.1, l1_loss nt.2 (labels nt.1))) =
        output_dict.map (fun nt => (nt.1, (0:ℚ))) := by
      apply List.map_congr_left
      intro nt hnt
      rw [hid nt hnt, hl1_zero]
    have hmapW : output_dict.map (fun nt => (nt.1, weighted_l1_loss nt.2 (labels nt.1))) =
        output_dict.map (fun nt => (nt.1, (0:ℚ))) := by
      apply List.map_congr_left
      intro nt hnt
      rw [hid nt hnt, hw_zero]
    have hsum0L : (output_dict.map (fun nt => l1_loss nt.2 (labels nt.1))).sum = 0 := by
      apply List.sum_eq_zero
      intro x hx
      rcases List.mem_map.mp hx with ⟨nt, hnt, rfl⟩
      rw [hid nt hnt, hl1_zero]
    have hsum0W : (output_dict.map (fun nt => weighted_l1_loss nt.2 (labels nt.1))).sum = 0 := by
      apply List.sum_eq_zero
      intro x hx
      rcases List.mem_map.mp hx with ⟨nt, hnt, rfl⟩
      rw [hid nt hnt, hw_zero]
    exact ⟨by rw [hL1, hsum0L, hmapL], by rw [hW, hsum0W, hmapW]⟩
  · intro hlab L ms heq
    rw [hW] at heq
    have hLs : L = (output_dict.map (fun nt => weighted_l1_loss nt.2 (labels nt.1))).sum := by
      have := (Except.ok.injEq _ _).mp heq.symm
      exact (Prod.mk.injEq _ _ _ _).mp this |>.1
    rw [hLs]
    apply List.sum_nonneg
    intro x hx
    rcases List.mem_map.mp hx with ⟨nt, _, rfl⟩
    apply div_nonneg _ (by positivity)
    apply Finset.sum_nonneg; intro b _
    apply Finset.sum_nonneg; intro t _
    apply Finset.sum_nonneg; intro f _
    apply Finset.sum_nonneg; intro c _
    apply mul_nonneg _ (abs_nonneg _)
    apply div_nonneg _ (by positivity)
    apply Finset.sum_nonneg; intro t' _
    apply Finset.sum_nonneg; intro f' _
    apply Finset.sum_nonneg; intro c' _
    exact hlab _ _ _ _ _
  · intro lt h1 h2
    rw [build_loss]
    simp only [Option.getD_some, if_neg h1, if_neg h2]

/-- **C6, witness.** -/
theorem build_loss_properties_witness :
    (build_loss (some L1_MASK) [("vocals_spectrogram", Tensor4.mk 1 1 1 1 (fun _ _ _ _ => 2))]
        (fun _ => Tensor4.mk 1 1 1 1 (fun _ _ _ _ => 2)) =
      .ok (0, [("vocals_spectrogram", 0)])) ∧
    (build_loss (some WEIGHTED_L1_MASK)
        [("vocals_spectrogram", Tensor4.mk 1 1 1 1 (fun _ _ _ _ => 2))]
        (fun _ => Tensor4.mk 1 1 1 1 (fun _ _ _ _ => 2)) =
      .ok (0, [("vocals_spectrogram", 0)])) := by
  have h := build_loss_properties
    [("vocals_spectrogram", Tensor4.mk 1 1 1 1 (fun _ _ _ _ => 2))]
    (fun _ => Tensor4.mk 1 1 1 1 (fun _ _ _ _ => 2))
  exact h.1 (by intro nt hnt; simp at hnt; subst hnt; rfl)

/-- **C7.**  Optimizer selection: `Adadelta` yields an Adadelta optimizer with
no learning rate required (the `learning_rate` key may be absent); `SGD` yields
a gradient-descent optimizer with the configured learning rate; any other
configured name — or an unset `optimizer` key — falls back to an Adam optimizer
with the configured learning rate rather than failing. -/
theorem build_optimizer_selection (name : Option String) (lr : Option ℚ) (r : ℚ) :
    build_optimizer (some ADADELTA) lr = .ok .AdadeltaOptimizer ∧
    build_optimizer (some SGD) (some r) = .ok (.GradientDescentOptimizer r) ∧
    (name ≠ some ADADELTA → name ≠ some SGD →
      build_optimizer name (some r) = .ok (.AdamOptimizer r)) := by
  refine ⟨?_, ?_, ?_⟩
  · rw [build_optimizer.eq_def, if_pos rfl]
  · rw [build_optimizer.eq_def, if_neg (by decide : ¬ (some SGD = some ADADELTA))]
    simp
  · intro h1 h2
    rw [build_optimizer.eq_def, if_neg h1]
    show (if name = some SGD then _ else _) = _
    rw [if_neg h2]

/-- **C7, witness.** -/
theorem build_optimizer_selection_witness :
    build_optimizer (some ADADELTA) none = .ok .AdadeltaOptimizer ∧
    build_optimizer (some SGD) (some 1) = .ok (.GradientDescentOptimizer 1) ∧
    build_optimizer (some "RMSProp") (some 1) = .ok (.AdamOptimizer 1) := by
  have h := build_optimizer_selection (some "RMSProp") none 1
  exact ⟨h.1, h.2.1, h.2.2 (by decide) (by decide)⟩

/-- **C8.**  Model resolution: `_build_output_dict` fails with the
`ModelNotFoundError` message `"No model function <name> found"` exactly when
the submodule named by the dotted model-type identifier cannot be located
(a missing *attribute* in a located module raises a plain `AttributeError`
instead, and is not converted); when the submodule is located and holds the
function, the output dict is the resolved model function applied to the
mixture spectrogram, the instrument list, and the model parameters. -/
theorem build_output_dict_resolution {α π : Type} (env : ImportEnv α π)
    (features : List (String × α)) (params : Params π)
    (input_tensor : α) (mt : String) (mp : π)
    (hfeat : features.lookup (params.mix_name ++ "_spectrogram") = some input_tensor)
    (hmodel : params.model = some { type := some mt, params := some mp }) :
    (build_output_dict env features params =
        .error (.valueError ("No model function " ++ mt ++ " found")) ↔
      (MAIN_MODULE ++ "." ++ relative_path_to_module mt) ∉ env.modules) ∧
    (∀ f, (MAIN_MODULE ++ "." ++ relative_path_to_module mt) ∈ env.modules →
      env.getattr_fn (MAIN_MODULE ++ "." ++ relative_path_to_module mt)
        (model_name_of mt) = some f →
      build_output_dict env features params =
        .ok (f input_tensor params.instrument_list mp)) := by
  have hnotfound : (MAIN_MODULE ++ "." ++ relative_path_to_module mt) ∉ env.modules →
      build_output_dict env features params =
        .error (.valueError ("No model function " ++ mt ++ " found")) := by
    intro hnm
    simp only [build_output_dict, dict_get, hfeat, hmodel, Option.getD_some,
      get_model_function, if_neg hnm, Bind.bind, Except.bind]
  have hfound : ∀ f, (MAIN_MODULE ++ "." ++ relative_path_to_module mt) ∈ env.modules →
      env.getattr_fn (MAIN_MODULE ++ "." ++ relative_path_to_module mt)
        (model_name_of mt) = some f →
      build_output_dict env features params =
        .ok (f input_tensor params.instrument_list mp) := by
    intro f hm hf
    simp only [build_output_dict, dict_get, hfeat, hmodel, Option.getD_some,
      get_model_function, if_pos hm, hf, Bind.bind, Except.bind]
  have hattr : (MAIN_MODULE ++ "." ++ relative_path_to_module mt) ∈ env.modules →
      env.getattr_fn (MAIN_MODULE ++ "." ++ relative_path_to_module mt)
        (model_name_of mt) = none →
      build_output_dict env features params =
        .error (.attributeError (model_name_of mt)) := by
    intro hm hf
    simp only [build_output_dict, dict_get, hfeat, hmodel, Option.getD_some,
      get_model_function, if_pos hm, hf, Bind.bind, Except.bind]
  refine ⟨⟨?_, hnotfound⟩, hfound⟩
  intro herr
  by_contra hmem
  cases hget : env.getattr_fn (MAIN_MODULE ++ "." ++ relative_path_to_module mt)
      (model_name_of mt) with
  | none =>
    rw [hattr hmem hget] at herr
    simp at herr
  | some f =>
    rw [hfound f hmem hget] at herr
    simp at herr

/-- **C8, witness.** -/
theorem build_output_dict_resolution_witness :
    (build_output_dict unetEnv [("mix_spectrogram", ())] paramsWithModel =
        .error (.valueError ("No model function " ++ "unet.unet" ++ " found")) ↔
      (MAIN_MODULE ++ "." ++ relative_path_to_module "unet.unet") ∉ unetEnv.modules) ∧
    (∀ f, (MAIN_MODULE ++ "." ++ relative_path_to_module "unet.unet") ∈ unetEnv.modules →
      unetEnv.getattr_fn (MAIN_MODULE ++ "." ++ relative_path_to_module "unet.unet")
        (model_name_of "unet.unet") = some f →
      build_output_dict unetEnv [("mix_spectrogram", ())] paramsWithModel =
        .ok (f () paramsWithModel.instrument_list ())) :=
  build_output_dict_resolution unetEnv [("mix_spectrogram", ())] paramsWithModel
    () "unet.unet" () (by rfl) (by rfl)

/-- **C9.**  Mode dispatch: `model_fn` on any mode other than the PREDICT,
EVAL and TRAIN mode keys returns only `ValueError(f'Unknown mode {mode}')`
(the spec's `UnsupportedModeError`), constructing nothing else; on the three
supported modes it returns exactly the result of the predict, evaluation, or
train builder respectively. -/
theorem model_fn_mode_dispatch {α π : Type} (env : ImportEnv α π) (B : Backend α)
    (features labels : List (String × α)) (params : Params π) :
    (∀ mode, mode ≠ MODE_PREDICT → mode ≠ MODE_EVAL → mode ≠ MODE_TRAIN →
      model_fn env B features labels mode params =
        .error (.valueError ("Unknown mode " ++ mode))) ∧
    model_fn env B features labels MODE_PREDICT params =
      build_predict_model env B features params ∧
    model_fn env B features labels MODE_EVAL params =
      build_evaluation_model env B features params labels ∧
    model_fn env B features labels MODE_TRAIN params =
      build_train_model env B features params labels := by
  refine ⟨?_, ?_, ?_, ?_⟩
  · intro mode h1 h2 h3
    rw [model_fn, if_neg h1, if_neg h2, if_neg h3]
  · rw [model_fn, if_pos rfl]
  · rw [model_fn, if_neg (by decide), if_pos rfl]
  · rw [model_fn, if_neg (by decide), if_neg (by decide), if_pos rfl]

/-- **C9, witness.** -/
theorem model_fn_mode_dispatch_witness :
    (model_fn unetEnv unitBackend [("mix_spectrogram", ())] [] "banana" paramsWithModel =
      .error (.valueError ("Unknown mode " ++ "banana"))) ∧
    model_fn unetEnv unitBackend [("mix_spectrogram", ())] [] MODE_PREDICT paramsWithModel =
      build_predict_model unetEnv unitBackend [("mix_spectrogram", ())] paramsWithModel ∧
    model_fn unetEnv unitBackend [("mix_spectrogram", ())] [] MODE_EVAL paramsWithModel =
      build_evaluation_model unetEnv unitBackend [("mix_spectrogram", ())] paramsWithModel [] ∧
    model_fn unetEnv unitBackend [("mix_spectrogram", ())] [] MODE_TRAIN paramsWithModel =
      build_train_model unetEnv unitBackend [("mix_spectrogram", ())] paramsWithModel [] := by
  have h := model_fn_mode_dispatch unetEnv unitBackend [("mix_spectrogram", ())] [] paramsWithModel
  exact ⟨h.1 "banana" (by decide) (by decide) (by decide), h.2⟩

/-- **C10 (code bug).**  With every required configuration key present, the
mix spectrogram feature supplied, and the default `unet.unet` submodule
importable, `_build_output_dict` on a configuration that omits the optional
`model` key does *not* succeed with the default model: the final argument
expression `self._params['model']['params']` (line 130) raises
`KeyError('model')`, although lines 118-122 explicitly default `model_type`
when the key is absent. -/
theorem build_output_dict_missing_model_key :
    build_output_dict unetEnv [("mix_spectrogram", ())] paramsNoModel =
      .error (.keyError "model") := by
  rfl

theorem le_mul_num_frames (L s : ℕ) (hs : 0 < s) : L ≤ s * num_frames L s := by
  unfold num_frames
  have h := Nat.div_add_mod (L + s - 1) s
  have hlt : (L + s - 1) % s < s := Nat.mod_lt _ hs
  omega

theorem one_le_num_frames (L s : ℕ) (hs : 0 < s) (hL : 0 < L) : 1 ≤ num_frames L s := by
  unfold num_frames
  rw [Nat.one_le_div_iff hs]
  omega

/-- **C4.**  `_inverse_stft` applies the periodic Hann synthesis window of the
configured frame length, overlap-adds the inverse-transformed frames,
multiplies by `WINDOW_COMPENSATION_FACTOR = 2/3` (all of which is the `data`
field of `inverse_stft`, made explicit in the last conjunct), and the final
slice `reshaped[:tf.shape(waveform)[0], :]` leaves a waveform with exactly the
sample count and channel count of the original input waveform, for every STFT
tensor with the frame count the forward transform produces (the overlap-add
output is never shorter than the input when `frame_step ≤ frame_length`). -/
theorem inverse_stft_shape (w : WaveTensor) (st : StftTensor) (N s : ℕ)
    (hs : 0 < s) (hsN : s ≤ N) (hL : 0 < w.samples)
    (hframes : st.frames = num_frames w.samples s) (hch : st.channels = w.channels) :
    (inverse_stft st N s w.samples).samples = w.samples ∧
    (inverse_stft st N s w.samples).channels = w.channels ∧
    ∀ t c, (inverse_stft st N s w.samples).data t c =
      WINDOW_COMPENSATION_FACTOR *
        istft_ola (fun k f => st.data k f c) st.frames N s t := by
  refine ⟨?_, hch, fun t c => rfl⟩
  show min w.samples (if st.frames = 0 then 0 else N + s * (st.frames - 1)) = w.samples
  have h1 : 1 ≤ num_frames w.samples s := one_le_num_frames _ _ hs hL
  have h2 : w.samples ≤ s * num_frames w.samples s := le_mul_num_frames _ _ hs
  rw [hframes, if_neg (by omega)]
  have h3 : s * (num_frames w.samples s - 1) + s = s * num_frames w.samples s := by
    have : num_frames w.samples s - 1 + 1 = num_frames w.samples s := by omega
    rw [← Nat.mul_succ]
    rw [Nat.succ_eq_add_one, this]
  omega

/-- **C4, witness.** -/
theorem inverse_stft_shape_witness :
    (inverse_stft (build_stft_feature (WaveTensor.mk 5 2 (fun _ _ => 1)) 4 2) 4 2 5).samples = 5 ∧
    (inverse_stft (build_stft_feature (WaveTensor.mk 5 2 (fun _ _ => 1)) 4 2) 4 2 5).channels = 2 ∧
    ∀ t c, (inverse_stft (build_stft_feature (WaveTensor.mk 5 2 (fun _ _ => 1)) 4 2) 4 2 5).data t c =
      WINDOW_COMPENSATION_FACTOR *
        istft_ola (fun k f => (build_stft_feature (WaveTensor.mk 5 2 (fun _ _ => 1)) 4 2).data k f c)
          (build_stft_feature (WaveTensor.mk 5 2 (fun _ _ => 1)) 4 2).frames 4 2 t :=
  inverse_stft_shape (WaveTensor.mk 5 2 (fun _ _ => 1))
    (build_stft_feature (WaveTensor.mk 5 2 (fun _ _ => 1)) 4 2) 4 2
    (by decide) (by decide) (by decide) rfl rfl

theorem fourier_kernel_add (N : ℕ) (a b : ℤ) :
    fourier_kernel N (a + b) = fourier_kernel N a * fourier_kernel N b := by
  unfold fourier_kernel
  rw [← Complex.exp_add]
  congr 1
  push_cast
  ring

theorem fourier_kernel_pow (N : ℕ) (j : ℤ) (n : ℕ) :
    fourier_kernel N j ^ n = fourier_kernel N (j * n) := by
  unfold fourier_kernel
  rw [← Complex.exp_nat_mul]
  congr 1
  push_cast
  ring

theorem fourier_kernel_nat_mul (N : ℕ) (hN : N ≠ 0) (m : ℤ) :
    fourier_kernel N ((N : ℤ) * m) = 1 := by
  unfold fourier_kernel
  have hNc : (N : ℂ) ≠ 0 := Nat.cast_ne_zero.mpr hN
  rw [show 2 * (Real.pi : ℂ) * Complex.I * (((N : ℤ) * m : ℤ) : ℂ) / (N : ℂ) =
      (m : ℂ) * (2 * (Real.pi : ℂ) * Complex.I) from by push_cast; field_simp; ring]
  exact Complex.exp_int_mul_two_pi_mul_I m

theorem fourier_kernel_conj (N : ℕ) (j : ℤ) :
    (starRingEnd ℂ) (fourier_kernel N j) = fourier_kernel N (-j) := by
  unfold fourier_kernel
  rw [← Complex.exp_conj]
  congr 1
  simp [map_div₀, Complex.conj_I, map_ofNat]

theorem fourier_kernel_ne_one (N : ℕ) (hN : N ≠ 0) (d : ℤ) (hd : ¬ (N : ℤ) ∣ d) :
    fourier_kernel N d ≠ 1 := by
  intro h
  unfold fourier_kernel at h
  rw [Complex.exp_eq_one_iff] at h
  obtain ⟨m, hm⟩ := h
  apply hd
  have hNc : (N : ℂ) ≠ 0 := Nat.cast_ne_zero.mpr hN
  have hpi : (Real.pi : ℂ) ≠ 0 := by
    exact_mod_cast Complex.ofReal_ne_zero.mpr Real.pi_ne_zero
  have h2 : (2 : ℂ) * (Real.pi : ℂ) * Complex.I ≠ 0 := by
    apply mul_ne_zero (mul_ne_zero two_ne_zero hpi) Complex.I_ne_zero
  have hdm : (d : ℂ) = (m : ℂ) * (N : ℂ) := by
    apply mul_left_cancel₀ h2
    field_simp at hm
    linear_combination hm
  have : (d : ℤ) = m * N := by exact_mod_cast hdm
  exact ⟨m, by rw [this]; ring⟩

theorem sum_fourier_kernel_eq_zero (N : ℕ) (hN : N ≠ 0) (d : ℤ) (hd : ¬ (N : ℤ) ∣ d) :
    ∑ f in Finset.range N, fourier_kernel N (f * d) = 0 := by
  have h1 : ∀ f : ℕ, fourier_kernel N ((f : ℤ) * d) = fourier_kernel N d ^ f := by
    intro f
    rw [fourier_kernel_pow]
    congr 1
    ring
  rw [Finset.sum_congr rfl (fun f _ => h1 f), geom_sum_eq (fourier_kernel_ne_one N hN d hd)]
  rw [fourier_kernel_pow, mul_comm d (N : ℤ), fourier_kernel_nat_mul N hN d]
  simp

theorem sum_dft_kernel (a : ℕ → ℝ) (N t : ℕ) (hN : N ≠ 0) (ht : t < N) :
    ∑ f in Finset.range N, dft_bin a N f * fourier_kernel N (f * t) = (N : ℂ) * a t := by
  unfold dft_bin
  have hstep : ∀ f ∈ Finset.range N,
      (∑ n in Finset.range N, (a n : ℂ) * fourier_kernel N (-(f * n))) * fourier_kernel N (f * t)
        = ∑ n in Finset.range N, (a n : ℂ) * fourier_kernel N (f * ((t : ℤ) - n)) := by
    intro f _
    rw [Finset.sum_mul]
    apply Finset.sum_congr rfl
    intro n _
    rw [mul_assoc, ← fourier_kernel_add]
    congr 2
    ring
  rw [Finset.sum_congr rfl hstep, Finset.sum_comm]
  have hinner : ∀ n ∈ Finset.range N,
      ∑ f in Finset.range N, (a n : ℂ) * fourier_kernel N (f * ((t : ℤ) - n))
        = (a n : ℂ) * (if n = t then (N : ℂ) else 0) := by
    intro n hn
    rw [← Finset.mul_sum]
    congr 1
    by_cases hnt : n = t
    · subst hnt
      rw [if_pos rfl]
      have : ∀ f ∈ Finset.range N, fourier_kernel N (f * ((n : ℤ) - n)) = 1 := by
        intro f _
        rw [show (f : ℤ) * ((n : ℤ) - n) = 0 from by ring]
        unfold fourier_kernel
        simp
      rw [Finset.sum_congr rfl this, Finset.sum_const, Finset.card_range, nsmul_eq_mul, mul_one]
    · rw [if_neg hnt]
      apply sum_fourier_kernel_eq_zero N hN
      intro hdvd
      have hn' : n < N := Finset.mem_range.mp hn
      rcases hdvd with ⟨k, hk⟩
      rcases lt_trichotomy k 0 with hk0 | hk0 | hk0
      · nlinarith [hk, hk0]
      · subst hk0
        simp at hk
        omega
      · nlinarith [hk, hk0]
  rw [Finset.sum_congr rfl hinner, Finset.sum_eq_single_of_mem t (Finset.mem_range.mpr ht)]
  · rw [if_pos rfl, mul_comm]
  · intro b _ hb
    rw [if_neg hb, mul_zero]

theorem dft_conj (a : ℕ → ℝ) (N : ℕ) (hN : N ≠ 0) (f : ℕ) (hf : f ≤ N) :
    (starRingEnd ℂ) (dft_bin a N (N - f)) = dft_bin a N f := by
  unfold dft_bin
  rw [map_sum]
  apply Finset.sum_congr rfl
  intro n _
  rw [map_mul, Complex.conj_ofReal, fourier_kernel_conj]
  congr 1
  rw [neg_neg]
  rw [show ((N - f : ℕ) : ℤ) * (n : ℤ) = (N : ℤ) * n + -((f : ℤ) * n) from by
    rw [Nat.cast_sub hf]; ring]
  rw [fourier_kernel_add, fourier_kernel_nat_mul N hN, one_mul]

theorem hermitian_dft (a : ℕ → ℝ) (N : ℕ) (hN : N ≠ 0) (f : ℕ) (hf : f < N) :
    hermitian_bins (fun g => dft_bin a N g) N f = dft_bin a N f := by
  unfold hermitian_bins
  split
  · rfl
  · exact dft_conj a N hN f (le_of_lt hf)

theorem irfft_dft (a : ℕ → ℝ) (N : ℕ) (hN : N ≠ 0) (t : ℕ) (ht : t < N) :
    irfft (fun f => dft_bin a N f) N t = a t := by
  unfold irfft
  rw [Finset.sum_congr rfl (fun f hf => by
    rw [hermitian_dft a N hN f (Finset.mem_range.mp hf)])]
  rw [sum_dft_kernel a N t hN ht]
  have hNc : (N : ℂ) ≠ 0 := Nat.cast_ne_zero.mpr hN
  rw [mul_comm, mul_div_assoc, div_self hNc, mul_one, Complex.ofReal_re]

theorem hann_four_sum (s : ℕ) (hs : 0 < s) (r : ℕ) :
    hann (4 * s) r ^ 2 + hann (4 * s) (r + s) ^ 2 + hann (4 * s) (r + 2 * s) ^ 2 +
      hann (4 * s) (r + 3 * s) ^ 2 = 3 / 2 := by
  have hs0 : ((s : ℕ) : ℝ) ≠ 0 := Nat.cast_ne_zero.mpr hs.ne'
  set θ : ℝ := 2 * Real.pi * (r : ℝ) / ((4 * s : ℕ) : ℝ) with hθ
  have e0 : hann (4 * s) r = (1 - Real.cos θ) / 2 := rfl
  have e1 : hann (4 * s) (r + s) = (1 - Real.cos (θ + Real.pi / 2)) / 2 := by
    rw [hann, hθ]
    congr 3
    push_cast
    field_simp
    ring
  have e2 : hann (4 * s) (r + 2 * s) = (1 - Real.cos (θ + Real.pi)) / 2 := by
    rw [hann, hθ]
    congr 3
    push_cast
    field_simp
    ring
  have e3 : hann (4 * s) (r + 3 * s) = (1 - Real.cos (θ + Real.pi + Real.pi / 2)) / 2 := by
    rw [hann, hθ]
    congr 3
    push_cast
    field_simp
    ring
  rw [e0, e1, e2, e3, Real.cos_add_pi_div_two θ, Real.cos_add_pi θ,
    Real.cos_add_pi_div_two (θ + Real.pi), Real.sin_add_pi θ]
  linear_combination (1 / 2) * Real.sin_sq_add_cos_sq θ

theorem istft_ola_stft (x : ℕ → ℝ) (L s t : ℕ) (hs : 0 < s) (ht3 : 3 * s ≤ t)
    (htL : t < L) :
    istft_ola (fun k f => stft_frame_bin x L (4 * s) s k f) (num_frames L s) (4 * s) s t
      = 3 / 2 * x t := by
  set N := 4 * s with hN
  set m := num_frames L s with hm
  set q := t / s with hq
  have hN0 : N ≠ 0 := by omega
  have hsq : s * q + t % s = t := Nat.div_add_mod t s
  have hmod : t % s < s := Nat.mod_lt t hs
  have hq3 : 3 ≤ q := by
    rw [hq]
    exact (Nat.le_div_iff_mul_le hs).mpr ht3
  have hqm : q < m := by
    rw [hq]
    apply (Nat.div_lt_iff_lt_mul hs).mpr
    have h1 := le_mul_num_frames L s hs
    rw [← hm] at h1
    have h2 : s * m = m * s := Nat.mul_comm s m
    omega
  -- each contributing frame reduces to the squared window times the sample
  have hA : ∀ k, k * s ≤ t → t < k * s + N →
      hann N (t - k * s) * irfft (fun f => stft_frame_bin x L N s k f) N (t - k * s)
        = hann N (t - k * s) ^ 2 * x t := by
    intro k h1 h2
    have hlt : t - k * s < N := by omega
    have : irfft (fun f => stft_frame_bin x L N s k f) N (t - k * s)
        = hann N (t - k * s) * padded L x (k * s + (t - k * s)) :=
      irfft_dft (fun n => hann N n * padded L x (k * s + n)) N hN0 (t - k * s) hlt
    rw [this, show k * s + (t - k * s) = t from by omega, padded, if_pos htL]
    ring
  rw [istft_ola]
  have hB : ∀ k ∈ Finset.range m,
      (if k * s ≤ t ∧ t < k * s + N then
        hann N (t - k * s) * irfft (fun f => stft_frame_bin x L N s k f) N (t - k * s)
      else 0)
        = (if k ∈ Finset.Icc (q - 3) q then hann N (t - k * s) ^ 2 else 0) * x t := by
    intro k _
    have hcond : (k * s ≤ t ∧ t < k * s + N) ↔ k ∈ Finset.Icc (q - 3) q := by
      rw [Finset.mem_Icc]
      have c1 : k * s ≤ t ↔ k ≤ q := by
        rw [hq]
        exact ((Nat.le_div_iff_mul_le hs).symm : k * s ≤ t ↔ k ≤ t / s).symm.symm
      have c2 : t < k * s + N ↔ q - 3 ≤ k := by
        rw [hN, hq]
        constructor
        · intro h
          have : t < (k + 4) * s := by rw [Nat.add_mul]; omega
          have := (Nat.div_lt_iff_lt_mul hs).mpr this
          omega
        · intro h
          have hlt : t / s < k + 4 := by omega
          have := (Nat.div_lt_iff_lt_mul hs).mp hlt
          rw [Nat.add_mul] at this
          omega
      rw [c1, c2]
      tauto
    by_cases h : k * s ≤ t ∧ t < k * s + N
    · rw [if_pos h, if_pos (hcond.mp h), hA k h.1 h.2]
    · rw [if_neg h, if_neg (fun hmem => h (hcond.mpr hmem)), zero_mul]
  rw [Finset.sum_congr rfl hB, ← Finset.sum_mul]
  have hsubset : Finset.Icc (q - 3) q ⊆ Finset.range m := by
    intro k hk
    rw [Finset.mem_Icc] at hk
    rw [Finset.mem_range]
    omega
  rw [Finset.sum_ite_mem, Finset.inter_eq_right.mpr hsubset]
  rw [← Nat.Ico_succ_right, Finset.sum_Ico_eq_sum_range]
  rw [show q + 1 - (q - 3) = 4 from by omega]
  have hoff : ∀ i, i ≤ 3 → t - (q - 3 + i) * s = t % s + (3 - i) * s := by
    intro i hi
    have h1 : (q - 3 + i) * s = q * s - (3 - i) * s := by
      rw [show q - 3 + i = q - (3 - i) from by omega, Nat.sub_mul]
    have h2 : (3 - i) * s ≤ q * s := Nat.mul_le_mul_right _ (by omega)
    have h3 : s * q = q * s := Nat.mul_comm s q
    omega
  rw [Finset.sum_range_succ, Finset.sum_range_succ, Finset.sum_range_succ,
    Finset.sum_range_one]
  rw [hoff 0 (by omega), hoff 1 (by omega), hoff 2 (by omega), hoff 3 (by omega)]
  rw [show (3:ℕ) - 0 = 3 from rfl, show (3:ℕ) - 1 = 2 from rfl,
    show (3:ℕ) - 2 = 1 from rfl, show (3:ℕ) - 3 = 0 from rfl,
    one_mul, Nat.zero_mul, Nat.add_zero]
  have hfs := hann_four_sum s hs (t % s)
  rw [← hN] at hfs
  linear_combination (x t) * hfs

/-- **C5 (amended).**  Round trip of the transform pipeline: with the
configured 4× overlap (`frame_length = 4 * frame_step`, the regime the fixed
`2/3` compensation factor is designed for), applying `_build_stft_feature`'s
forward transform and then `_inverse_stft` reproduces every sample of the
input waveform *exactly* from index `frame_length - frame_step` up to the
input length, on every channel; the windowing edge effects are confined to the
first `frame_length - frame_step` samples (see the counterexample), not to the
zero-padded tail. -/
theorem inverse_stft_round_trip_interior (w : WaveTensor) (N s t c : ℕ)
    (hs : 0 < s) (hN : N = 4 * s) (ht : N - s ≤ t) (htL : t < w.samples) :
    (inverse_stft (build_stft_feature w N s) N s w.samples).data t c = w.data t c := by
  subst hN
  have ht3 : 3 * s ≤ t := by omega
  show WINDOW_COMPENSATION_FACTOR *
      istft_ola (fun k f => stft_frame_bin (fun u => w.data u c) w.samples (4 * s) s k f)
        (num_frames w.samples s) (4 * s) s t = w.data t c
  rw [istft_ola_stft (fun u => w.data u c) w.samples s t hs ht3 htL,
    WINDOW_COMPENSATION_FACTOR]
  ring

/-- **C5, witness for the amended claim.** -/
theorem inverse_stft_round_trip_interior_witness :
    (inverse_stft (build_stft_feature (WaveTensor.mk 8 1 (fun u _ => (u : ℝ))) 4 1) 4 1 8).data 3 0
      = (WaveTensor.mk 8 1 (fun u _ => (u : ℝ))).data 3 0 :=
  inverse_stft_round_trip_interior (WaveTensor.mk 8 1 (fun u _ => (u : ℝ))) 4 1 3 0
    (by decide) (by decide) (by decide) (by decide)

/-- **C5, counterexample to the claim as stated.**  The claim allows deviation
only "at the zero-padded tail", but the round trip is *not* approximately the
identity at the start of the waveform: for the all-ones 8-sample waveform
(frame length 4, frame step 1), sample 0 — which is nowhere near the padded
tail — reconstructs to `0` instead of `1`, because the periodic Hann window
vanishes at its first coefficient and sample 0 is covered by no other frame. -/
theorem inverse_stft_round_trip_head_counterexample :
    (inverse_stft (build_stft_feature (WaveTensor.mk 8 1 (fun _ _ => 1)) 4 1) 4 1 8).data 0 0
      ≠ (WaveTensor.mk 8 1 (fun _ _ => 1)).data 0 0 := by
  have hz : (inverse_stft (build_stft_feature (WaveTensor.mk 8 1 (fun _ _ => 1)) 4 1) 4 1 8).data 0 0
      = 0 := by
    show WINDOW_COMPENSATION_FACTOR *
        istft_ola (fun k f => stft_frame_bin (fun _ => (1 : ℝ)) 8 4 1 k f)
          (num_frames 8 1) 4 1 0 = 0
    have hsum : istft_ola (fun k f => stft_frame_bin (fun _ => (1 : ℝ)) 8 4 1 k f)
        (num_frames 8 1) 4 1 0 = 0 := by
      rw [istft_ola]
      apply Finset.sum_eq_zero
      intro k _
      rcases Nat.eq_zero_or_pos k with rfl | hpos
      · rw [if_pos (by omega)]
        have h0 : hann 4 (0 - 0 * 1) = 0 := by
          rw [show (0 - 0 * 1 : ℕ) = 0 from rfl, hann]
          norm_num
        rw [h0, zero_mul]
      · rw [if_neg (by omega)]
    rw [hsum, mul_zero]
  rw [hz]
  show (0 : ℝ) ≠ 1
  norm_num

end Spleeter
